import Mathlib

/-!
Shallow embedding of the storage subsystem of the repository:
the abstract storage contract with its two adapters
(`MemoryStorage` from `src/adapters/memoryStorage.js`,
`FileStorage` from `src/adapters/fileStorage.js`)
and the failover factory (`src/utils/storageFactory.js`).

Records are JavaScript objects, modelled as association lists of string
keys and JSON-like values; documents map collection names to record
arrays.  Wall-clock times produced by `new Date().toISOString()` and
`Date.now()` are modelled by a natural-number instant passed to each
operation, and the random tail of `Math.random().toString(36).substr(2, 9)`
by an explicit string parameter.  Thrown exceptions are modelled with
`Except Unit`.
-/

namespace Patchfest

/-- A JSON-like field value as stored in a record. -/
inductive Val where
  | str (s : String)
  | num (n : Nat)
  | bool (b : Bool)
deriving DecidableEq, Repr

/-- A JavaScript object: an association list of key/value pairs.
Objects built by the code below never carry duplicate keys. -/
abbrev Obj := List (String × Val)

/-- Property access `o[k]`: the first binding of `k`, `none` for `undefined`. -/
def oget (o : Obj) (k : String) : Option Val :=
  match o with
  | [] => none
  | (k0, v) :: rest => if k0 = k then some v else oget rest k

/-- JavaScript truthiness of a field value. -/
def vtruthy : Val → Bool
  | .str s => s ≠ ""
  | .num n => n ≠ 0
  | .bool b => b

/-- Truthiness of a possibly-undefined property. -/
def otruthy : Option Val → Bool
  | none => false
  | some v => vtruthy v

/-- Object spread `{ ...a, ...b }`: keys of `a` keep their position
(values overridden by `b` where present) and the keys of `b` that are
new are appended in order. -/
def omerge (a b : Obj) : Obj :=
  a.map (fun p => match oget b p.1 with
    | some v => (p.1, v)
    | none => p)
  ++ b.filter (fun q => (oget a q.1).isNone)

/-- A document: collection name to array of records, in insertion order. -/
abbrev Doc := List (String × List Obj)

/-- Collection access `data[c]`. -/
def dget (d : Doc) (c : String) : Option (List Obj) :=
  match d with
  | [] => none
  | (c0, rs) :: rest => if c0 = c then some rs else dget rest c

/-- Collection assignment `data[c] = rs`: replaces the binding in place,
or appends the key when absent. -/
def dset (d : Doc) (c : String) (rs : List Obj) : Doc :=
  match d with
  | [] => [(c, rs)]
  | (c0, rs0) :: rest => if c0 = c then (c, rs) :: rest else (c0, rs0) :: dset rest c rs

/-- Key removal `delete data[c]`. -/
def dremove (d : Doc) (c : String) : Doc :=
  d.filter (fun p => p.1 ≠ c)

/-- The call `Object.keys(data)`. -/
def docKeys (d : Doc) : List String :=
  d.map Prod.fst

/-- The `DefaultCollections` constant of `src/interfaces/storageInterface.js`. -/
def DefaultCollections : Doc :=
  [("users", []), ("posts", []), ("comments", [])]

/-- Record lookup `records.find(record => record.id === id)`: strict equality
against the string `id`, so only a string-valued `id` field can match. -/
def findById (records : List Obj) (id : String) : Option Obj :=
  records.find? (fun r => oget r "id" = some (.str id))

/-- Index of the matching record, `records.findIndex(record => record.id === id)`. -/
def findIdxById (records : List Obj) (id : String) : Option Nat :=
  records.findIdx? (fun r => oget r "id" = some (.str id))

/-- The id actually stored by `createRecord`: `record.id || this.generateId()` —
a truthy caller-supplied `id` wins, otherwise the freshly generated string. -/
def idFromPayload (payload : Obj) (generated : String) : Val :=
  match oget payload "id" with
  | some v => if vtruthy v then v else .str generated
  | none => .str generated

/-- Method `FileStorage.generateId()`. -/
def generateIdFile (now : Nat) (rnd : String) : String :=
  toString now ++ "-" ++ rnd

/-- Method `MemoryStorage.generateId()`. -/
def generateIdMem (now : Nat) (rnd : String) : String :=
  "mem-" ++ toString now ++ "-" ++ rnd

/-- The record object built by `createRecord`:
`{ ...record, id, createdAt: now, updatedAt: now }`. -/
def buildCreated (payload : Obj) (idVal : Val) (now : Nat) : Obj :=
  omerge payload [("id", idVal), ("createdAt", .num now), ("updatedAt", .num now)]

/-- The record object built by `updateRecord`:
`{ ...existing, ...updates, id, updatedAt: now }`. -/
def buildUpdated (existing updates : Obj) (id : String) (now : Nat) : Obj :=
  omerge (omerge existing updates) [("id", .str id), ("updatedAt", .num now)]

/-- The portion of a `getStats()` result shared by the two adapters.
Environment-dependent extras (`memoryUsage`, `fileSize`, `filePath`,
`lastModified`, `createdAt`, `persistent`, `warning`) are not modelled. -/
structure Stats where
  storageType : String
  totalCollections : Nat
  totalRecords : Nat
  collections : List (String × Nat)
deriving DecidableEq, Repr

/-- The stats computed from a document: `Object.keys` count, the
`reduce`-computed record total and the per-collection count map. -/
def statsOf (ty : String) (d : Doc) : Stats :=
  { storageType := ty
    totalCollections := (docKeys d).length
    totalRecords := (docKeys d).foldl (fun tot c => tot + ((dget d c).getD []).length) 0
    collections := (docKeys d).map (fun c => (c, ((dget d c).getD []).length)) }

end Patchfest

namespace Patchfest

/-- State of a `MemoryStorage` instance: its `data` document and the
`initialized` flag (the flag is written by `init` but never consulted). -/
structure MemoryStorage where
  data : Doc
  initialized : Bool
deriving DecidableEq, Repr

namespace MemoryStorage

/-- The constructor: `this.data = {}; this.initialized = false`. -/
def new : MemoryStorage := ⟨[], false⟩

/-- Method `init()`: `this.data = { ...DefaultCollections }; this.initialized = true`.
There is no guard on `this.initialized`; the reset is unconditional. -/
def init (_s : MemoryStorage) : MemoryStorage :=
  ⟨DefaultCollections, true⟩

/-- Method `getCollection(collection)`: a copy of `this.data[collection] || []`. -/
def getCollection (s : MemoryStorage) (collection : String) : List Obj :=
  (dget s.data collection).getD []

/-- Method `getRecord(collection, id)`: find by id in `this.data[collection] || []`,
returning a copy or `null`. -/
def getRecord (s : MemoryStorage) (collection id : String) : Option Obj :=
  findById ((dget s.data collection).getD []) id

/-- Method `createRecord(collection, record)`: auto-create the collection, pick
`record.id || this.generateId()`, stamp both timestamps with now, push,
and return a copy of the stored record. -/
def createRecord (s : MemoryStorage) (collection : String) (payload : Obj)
    (now : Nat) (rnd : String) : Obj × MemoryStorage :=
  let data0 := if (dget s.data collection).isNone then dset s.data collection [] else s.data
  let newRecord := buildCreated payload (idFromPayload payload (generateIdMem now rnd)) now
  let data1 := dset data0 collection (((dget data0 collection).getD []) ++ [newRecord])
  (newRecord, { s with data := data1 })

/-- Method `updateRecord(collection, id, updates)`: `null` when the collection or
the id is missing; otherwise replace the found index with
`{ ...existing, ...updates, id, updatedAt: now }` and return a copy. -/
def updateRecord (s : MemoryStorage) (collection id : String) (updates : Obj)
    (now : Nat) : Option Obj × MemoryStorage :=
  match dget s.data collection with
  | none => (none, s)
  | some records =>
    match findIdxById records id with
    | none => (none, s)
    | some idx =>
      let updated := buildUpdated (records.getD idx []) updates id now
      (some updated, { s with data := dset s.data collection (records.set idx updated) })

/-- Method `deleteRecord(collection, id)`: filter out the matching records and
report whether the array shrank. -/
def deleteRecord (s : MemoryStorage) (collection id : String) : Bool × MemoryStorage :=
  match dget s.data collection with
  | none => (false, s)
  | some records =>
    let remaining := records.filter (fun r => ¬ oget r "id" = some (.str id))
    (decide (remaining.length < records.length),
      { s with data := dset s.data collection remaining })

/-- Method `getStats()` restricted to the modelled fields. -/
def getStats (s : MemoryStorage) : Stats :=
  statsOf "memory" s.data

/-- Method `clear()`: `this.data = { ...DefaultCollections }`. -/
def clear (s : MemoryStorage) : MemoryStorage :=
  { s with data := DefaultCollections }

/-- Method `healthCheck()`: create/read/update/delete round-trip on the
`_healthTest` collection, then `delete this.data._healthTest`; every
failed check returns `false` with the state reached so far.  No step of
the probe can throw, so the `catch` branch is unreachable. -/
def healthCheck (s : MemoryStorage) (now : Nat) (rnd : String) : Bool × MemoryStorage :=
  let payload : Obj := [("name", .str "health-check"), ("timestamp", .num now)]
  let createdPair := createRecord s "_healthTest" payload now rnd
  let created := createdPair.1
  let s1 := createdPair.2
  if ¬ otruthy (oget created "id") then (false, s1)
  else
    let cid := match oget created "id" with
      | some (.str str) => str
      | _ => ""
    match getRecord s1 "_healthTest" cid with
    | none => (false, s1)
    | some readRec =>
      if ¬ oget readRec "name" = some (.str "health-check") then (false, s1)
      else
        let updatedPair := updateRecord s1 "_healthTest" cid [("status", .str "updated")] now
        let s2 := updatedPair.2
        match updatedPair.1 with
        | none => (false, s2)
        | some upd =>
          if ¬ oget upd "status" = some (.str "updated") then (false, s2)
          else
            let deletedPair := deleteRecord s2 "_healthTest" cid
            let s3 := deletedPair.2
            if ¬ deletedPair.1 then (false, s3)
            else (true, { s3 with data := dremove s3.data "_healthTest" })

end MemoryStorage

/-- State of the file behind a `FileStorage` instance, as far as
`JSON.parse` can tell it apart. -/
inductive FileContents where
  /-- The storage file does not exist (`ENOENT`). -/
  | absent
  /-- The file exists but its contents are not parseable JSON, so
  `JSON.parse` throws. -/
  | invalidJson
  /-- The file parses, but to `null` or a primitive: the value fails the
  `!data or typeof data !== "object"` validation of `init`. -/
  | nonObjectJson
  /-- The file parses to a JSON object of record arrays. -/
  | doc (d : Doc)
deriving DecidableEq, Repr

/-- Result of a successful `FileStorage.read()`. -/
inductive ReadVal where
  | doc (d : Doc)
  | nonObject
deriving DecidableEq, Repr

namespace FileStorage

/-- Method `read()`: parse the file; on `ENOENT` return the module-level
`DefaultCollections` object; wrap and rethrow any other failure. -/
def read : FileContents → Except Unit ReadVal
  | .absent => .ok (.doc DefaultCollections)
  | .invalidJson => .error ()
  | .nonObjectJson => .ok .nonObject
  | .doc d => .ok (.doc d)

/-- Method `init()`: ensure the directory, then `fs.access`; a missing file or a
parsed value failing the `!data or typeof data !== "object"` check is
replaced by `DefaultCollections`; a `read()` failure that is neither
`ENOENT` nor the structure check (unparsable JSON) is rethrown, so `init`
fails with its wrapping initialization error. -/
def init : FileContents → Except Unit FileContents
  | .absent => .ok (.doc DefaultCollections)
  | .invalidJson => .error ()
  | .nonObjectJson => .ok (.doc DefaultCollections)
  | .doc d => .ok (.doc d)

/-- Method `getCollection(collection)`: `data[collection] || []` on the read
document; property access on a parsed primitive yields `undefined`. -/
def getCollection (st : FileContents) (collection : String) : Except Unit (List Obj) := do
  match ← read st with
  | .doc d => pure ((dget d collection).getD [])
  | .nonObject => pure []

/-- Method `getRecord(collection, id)`: find by id in the collection, `null` when absent. -/
def getRecord (st : FileContents) (collection id : String) : Except Unit (Option Obj) := do
  pure (findById (← getCollection st collection) id)

/-- Method `createRecord(collection, record)`: read, auto-create the collection,
push `{ ...record, id, createdAt, updatedAt }` and write the document
back.  On a parsed primitive the `data[collection] = []` assignment is a
silent no-op and `data[collection].push` throws. -/
def createRecord (st : FileContents) (collection : String) (payload : Obj)
    (now : Nat) (rnd : String) : Except Unit (Obj × FileContents) := do
  match ← read st with
  | .nonObject => .error ()
  | .doc d =>
    let data0 := if (dget d collection).isNone then dset d collection [] else d
    let newRecord := buildCreated payload (idFromPayload payload (generateIdFile now rnd)) now
    let data1 := dset data0 collection (((dget data0 collection).getD []) ++ [newRecord])
    pure (newRecord, .doc data1)

/-- Method `updateRecord(collection, id, updates)`: `null` without writing when
the collection or the id is missing; otherwise replace the found index
with `{ ...existing, ...updates, id, updatedAt: now }` and write. -/
def updateRecord (st : FileContents) (collection id : String) (updates : Obj)
    (now : Nat) : Except Unit (Option Obj × FileContents) := do
  match ← read st with
  | .nonObject => pure (none, st)
  | .doc d =>
    match dget d collection with
    | none => pure (none, st)
    | some records =>
      match findIdxById records id with
      | none => pure (none, st)
      | some idx =>
        let updated := buildUpdated (records.getD idx []) updates id now
        pure (some updated, .doc (dset d collection (records.set idx updated)))

/-- Method `deleteRecord(collection, id)`: filter the collection; return `false`
without writing when nothing was removed, else write and return `true`. -/
def deleteRecord (st : FileContents) (collection id : String) :
    Except Unit (Bool × FileContents) := do
  match ← read st with
  | .nonObject => pure (false, st)
  | .doc d =>
    match dget d collection with
    | none => pure (false, st)
    | some records =>
      let remaining := records.filter (fun r => ¬ oget r "id" = some (.str id))
      if remaining.length = records.length then pure (false, st)
      else pure (true, .doc (dset d collection remaining))

/-- Method `getStats()` restricted to the modelled fields; `Object.keys` of a
parsed primitive is empty. -/
def getStats (st : FileContents) : Except Unit Stats := do
  match ← read st with
  | .doc d => pure (statsOf "file" d)
  | .nonObject => pure (statsOf "file" [])

/-- Method `createBackup()`: the read value together with the stats (the
remaining metadata fields are timestamps and the path). -/
def createBackup (st : FileContents) : Except Unit (ReadVal × Stats) := do
  pure (← read st, ← getStats st)

/-- Method `clear()`: write `DefaultCollections` unconditionally (no read). -/
def clear (_st : FileContents) : FileContents :=
  .doc DefaultCollections

/-- Method `healthCheck()`: `await this.read()` throws only on unparsable JSON,
in which case the `catch` returns `false` with the file untouched.
Otherwise the probe writes `{ ...DefaultCollections, _healthCheck: true }`
(a shallow spread of the module seed plus a marker key), reads that
object back, deletes the `_healthCheck` key and writes the result, so
the call returns `true` and the file afterwards holds exactly
`DefaultCollections` — whatever document it held before. -/
def healthCheck : FileContents → Bool × FileContents
  | .invalidJson => (false, .invalidJson)
  | _ => (true, .doc DefaultCollections)

end FileStorage

/-- Which adapter class `createStorage` constructs. -/
inductive AdapterKind where
  | file
  | memory
deriving DecidableEq, Repr

namespace StorageFactory

/-- The valid values of the `StorageTypes` enum:
`file`, `memory` and the reserved `database`. -/
def isValidStorageType (t : String) : Bool :=
  t = "file" ∨ t = "memory" ∨ t = "database"

/-- The environment the factory reads: the explicit override and the
`STORAGE_TYPE`, `NODE_ENV` and `DEV_STORAGE` variables (`none` models an
unset variable). -/
structure EnvConfig where
  typeOverride : Option String
  storageTypeEnv : Option String
  nodeEnv : Option String
  devStorage : Option String

/-- Step 3 of `getStorageType`: the `NODE_ENV` switch. -/
def typeFromNodeEnv (e : EnvConfig) : String :=
  match e.nodeEnv with
  | some "test" => "memory"
  | some "testing" => "memory"
  | some "development" =>
    (match e.devStorage with
     | some d => if d ≠ "" then d else "file"
     | none => "file")
  | some "dev" =>
    (match e.devStorage with
     | some d => if d ≠ "" then d else "file"
     | none => "file")
  | some "production" => "file"
  | some "prod" => "file"
  | _ => "file"

/-- Step 2 of `getStorageType`: a truthy, valid `STORAGE_TYPE` wins. -/
def typeFromStorageTypeEnv (e : EnvConfig) : String :=
  match e.storageTypeEnv with
  | some u => if u ≠ "" ∧ isValidStorageType u then u else typeFromNodeEnv e
  | none => typeFromNodeEnv e

/-- Method `getStorageType(typeOverride)`: override, then `STORAGE_TYPE`, then
the `NODE_ENV` mapping. -/
def getStorageType (e : EnvConfig) : String :=
  match e.typeOverride with
  | some t => if t ≠ "" ∧ isValidStorageType t then t else typeFromStorageTypeEnv e
  | none => typeFromStorageTypeEnv e

/-- The `createStorage` switch: `memory` builds a `MemoryStorage`, every
other resolved string (including `database`) falls through to `FileStorage`. -/
def adapterFor (t : String) : AdapterKind :=
  if t = "memory" then .memory else .file

/-- Outcome of the environment for one attempt: whether constructing and
initialising the adapter throws, and what its `healthCheck` then reports.
This abstracts the I/O conditions (missing permissions, unwritable disk)
that the pure document model cannot express. -/
structure ProbeEnv where
  initThrows : AdapterKind → Bool
  healthy : AdapterKind → Bool

/-- One attempt of `createStorageWithFailover`: `createStorage` (construct
and `init`), then `healthCheck`; `some` is an adopted backend, `none`
covers both a thrown construction error and a failed health check. -/
def tryCreate (env : ProbeEnv) (t : String) : Option AdapterKind :=
  let a := adapterFor t
  if env.initThrows a then none
  else if env.healthy a then some a else none

/-- The fallback loop: walk the fixed list, skip the primary type,
adopt the first healthy candidate. -/
def tryFallbacks (env : ProbeEnv) (primary : String) : List String → Option AdapterKind
  | [] => none
  | t :: rest =>
    if t = primary then tryFallbacks env primary rest
    else
      match tryCreate env t with
      | some a => some a
      | none => tryFallbacks env primary rest

/-- Method `createStorageWithFailover`: try the resolved primary type, then the
fallback list of the file type then the memory type; `none` models the
final thrown storage-unavailable error. -/
def createStorageWithFailover (env : ProbeEnv) (primary : String) : Option AdapterKind :=
  match tryCreate env primary with
  | some a => some a
  | none => tryFallbacks env primary ["file", "memory"]

end StorageFactory

/-- One operation of the contract fragment compared across the two
adapters (the fragment used by the backend-parity theorem). -/
inductive POp where
  | getCollection (c : String)
  | getRecord (c i : String)
  | createRecord (c : String) (payload : Obj) (now : Nat) (rnd : String)
  | updateRecord (c i : String) (patch : Obj) (now : Nat)
  | deleteRecord (c i : String)
  | getStats
deriving DecidableEq, Repr

/-- The observable outcome of one fragment operation.  Stats are
compared on their shared numeric fields, leaving out `storageType`
and the size and timestamp extras. -/
inductive Out where
  | recs (rs : List Obj)
  | record (r : Option Obj)
  | ok (b : Bool)
  | counts (totalCollections totalRecords : Nat) (collections : List (String × Nat))
deriving DecidableEq, Repr

/-- The stats outcome restricted to the shared fields. -/
def Out.ofStats (s : Stats) : Out :=
  .counts s.totalCollections s.totalRecords s.collections

/-- A `createRecord` payload carrying a truthy `id` keeps the adapters
from consulting their differently-formatted id generators. -/
def POp.good : POp → Bool
  | .createRecord _ payload _ _ => otruthy (oget payload "id")
  | _ => true

/-- Run one fragment operation on a `MemoryStorage`. -/
def runMemOp (s : MemoryStorage) : POp → Out × MemoryStorage
  | .getCollection c => (.recs (s.getCollection c), s)
  | .getRecord c i => (.record (s.getRecord c i), s)
  | .createRecord c payload now rnd =>
    let p := s.createRecord c payload now rnd
    (.record (some p.1), p.2)
  | .updateRecord c i patch now =>
    let p := s.updateRecord c i patch now
    (.record p.1, p.2)
  | .deleteRecord c i =>
    let p := s.deleteRecord c i
    (.ok p.1, p.2)
  | .getStats => (.ofStats s.getStats, s)

/-- Run a fragment sequence on a `MemoryStorage`, collecting outcomes. -/
def runMem (s : MemoryStorage) : List POp → (List Out × MemoryStorage)
  | [] => ([], s)
  | op :: ops =>
    let p := runMemOp s op
    let q := runMem p.2 ops
    (p.1 :: q.1, q.2)

/-- Run one fragment operation on a `FileStorage`. -/
def runFileOp (st : FileContents) : POp → Except Unit (Out × FileContents)
  | .getCollection c => do pure (.recs (← FileStorage.getCollection st c), st)
  | .getRecord c i => do pure (.record (← FileStorage.getRecord st c i), st)
  | .createRecord c payload now rnd => do
    let p ← FileStorage.createRecord st c payload now rnd
    pure (.record (some p.1), p.2)
  | .updateRecord c i patch now => do
    let p ← FileStorage.updateRecord st c i patch now
    pure (.record p.1, p.2)
  | .deleteRecord c i => do
    let p ← FileStorage.deleteRecord st c i
    pure (.ok p.1, p.2)
  | .getStats => do pure (.ofStats (← FileStorage.getStats st), st)

/-- Run a fragment sequence on a `FileStorage`, collecting outcomes. -/
def runFile (st : FileContents) : List POp → Except Unit (List Out × FileContents)
  | [] => .ok ([], st)
  | op :: ops => do
    let p ← runFileOp st op
    let q ← runFile p.2 ops
    pure (p.1 :: q.1, q.2)

/-- A fresh file backend (no storage file yet) after `init`, then the sequence. -/
def runFileFresh (ops : List POp) : Except Unit (List Out × FileContents) := do
  runFile (← FileStorage.init .absent) ops

/-- A fresh memory backend after `init`, then the sequence. -/
def runMemFresh (ops : List POp) : List Out × MemoryStorage :=
  runMem (MemoryStorage.new.init) ops

/-! ### Lemmas about objects, documents and the shared record algebra -/

theorem oget_append (x y : Obj) (k : String) :
    oget (x ++ y) k = match oget x k with | some v => some v | none => oget y k := by
  induction x with
  | nil => simp [oget]
  | cons p rest ih =>
    obtain ⟨k0, v0⟩ := p
    by_cases h : k0 = k <;> simp [oget, h, ih]

theorem oget_map_override (a b : Obj) (k : String) :
    oget (a.map (fun p => match oget b p.1 with | some v => (p.1, v) | none => p)) k
      = match oget a k with
        | none => none
        | some w => match oget b k with | some v => some v | none => some w := by
  induction a with
  | nil => simp [oget]
  | cons p rest ih =>
    obtain ⟨k0, v0⟩ := p
    by_cases h : k0 = k
    · subst h
      cases hb : oget b k0 <;> simp [oget, hb]
    · cases hb : oget b k0 <;> simp [oget, h, ih, hb]

theorem oget_filter_isNone (a b : Obj) (k : String) :
    oget (b.filter (fun q => (oget a q.1).isNone)) k
      = if (oget a k).isNone then oget b k else none := by
  induction b with
  | nil => simp [oget]
  | cons q rest ih =>
    obtain ⟨k0, v0⟩ := q
    by_cases h : k0 = k
    · subst h
      cases ha : (oget a k0).isNone <;> simp [List.filter_cons, ha, oget, ih]
    · cases ha : (oget a k0).isNone <;> simp [List.filter_cons, ha, oget, h, ih]

/-- Field lookup after a spread: the second object wins where it has the key. -/
theorem oget_omerge (a b : Obj) (k : String) :
    oget (omerge a b) k = match oget b k with | some v => some v | none => oget a k := by
  unfold omerge
  rw [oget_append, oget_map_override, oget_filter_isNone]
  cases ha : oget a k <;> cases hb : oget b k <;> simp [ha, hb]

theorem dget_dset_self (d : Doc) (c : String) (rs : List Obj) :
    dget (dset d c rs) c = some rs := by
  induction d with
  | nil => simp [dset, dget]
  | cons p rest ih =>
    obtain ⟨c0, rs0⟩ := p
    by_cases h : c0 = c <;> simp [dset, dget, h, ih]

theorem dget_dset_ne (d : Doc) (c : String) (rs : List Obj) (c2 : String) (h : c2 ≠ c) :
    dget (dset d c rs) c2 = dget d c2 := by
  induction d with
  | nil =>
    have hne : ¬ c = c2 := fun hh => h hh.symm
    simp [dset, dget, hne]
  | cons p rest ih =>
    obtain ⟨c0, rs0⟩ := p
    by_cases h0 : c0 = c
    · subst h0
      have hne : ¬ c0 = c2 := fun hh => h hh.symm
      simp [dset, dget, hne]
    · simp [dset, dget, h0, ih]

theorem dset_self_of_dget (d : Doc) (c : String) (rs : List Obj) (h : dget d c = some rs) :
    dset d c rs = d := by
  induction d with
  | nil => simp [dget] at h
  | cons p rest ih =>
    obtain ⟨c0, rs0⟩ := p
    by_cases h0 : c0 = c
    · subst h0
      simp [dget] at h
      simp [dset, h]
    · simp [dget, h0] at h
      simp [dset, h0, ih h]

theorem foldl_add_eq_sum {α : Type} (l : List α) (f : α → Nat) (n : Nat) :
    l.foldl (fun tot c => tot + f c) n = n + (l.map f).sum := by
  induction l generalizing n with
  | nil => simp
  | cons a rest ih => simp [ih, Nat.add_assoc]

theorem filter_eq_self_of_length_eq {α : Type} (l : List α) (q : α → Bool)
    (h : (l.filter q).length = l.length) : l.filter q = l :=
  List.filter_eq_self.mpr (List.filter_length_eq_length.mp h)

theorem delete_filter_length_lt_iff (records : List Obj) (i : String) :
    (records.filter (fun r => ¬ oget r "id" = some (.str i))).length < records.length
      ↔ ∃ r ∈ records, oget r "id" = some (.str i) := by
  induction records with
  | nil => simp
  | cons r rest ih =>
    by_cases h : oget r "id" = some (.str i)
    · have hf : (r :: rest).filter (fun r => ¬ oget r "id" = some (.str i))
          = rest.filter (fun r => ¬ oget r "id" = some (.str i)) := by
        simp [List.filter_cons, h]
      rw [hf, List.length_cons]
      constructor
      · intro _
        exact ⟨r, List.mem_cons_self r rest, h⟩
      · intro _
        exact Nat.lt_succ_of_le (List.length_filter_le _ _)
    · have hf : (r :: rest).filter (fun r => ¬ oget r "id" = some (.str i))
          = r :: rest.filter (fun r => ¬ oget r "id" = some (.str i)) := by
        simp [List.filter_cons, h]
      rw [hf, List.length_cons, List.length_cons, Nat.add_lt_add_iff_right, ih]
      constructor
      · rintro ⟨x, hx, hid⟩
        exact ⟨x, List.mem_cons_of_mem r hx, hid⟩
      · rintro ⟨x, hx, hid⟩
        rcases List.mem_cons.mp hx with rfl | hx2
        · exact absurd hid h
        · exact ⟨x, hx2, hid⟩

theorem findById_filter_removed (records : List Obj) (i : String) :
    findById (records.filter (fun r => ¬ oget r "id" = some (.str i))) i = none := by
  unfold findById
  rw [List.find?_eq_none]
  intro r hr
  have h2 := (List.mem_filter.mp hr).2
  simp only [decide_not, Bool.not_eq_true', decide_eq_false_iff_not] at h2
  simpa using h2

theorem delete_filter_idem (records : List Obj) (i : String) :
    (records.filter (fun r => ¬ oget r "id" = some (.str i))).filter
        (fun r => ¬ oget r "id" = some (.str i))
      = records.filter (fun r => ¬ oget r "id" = some (.str i)) := by
  apply List.filter_eq_self.mpr
  intro r hr
  exact (List.mem_filter.mp hr).2

theorem findIdxById_spec (records : List Obj) (i : String) (idx : Nat)
    (h : findIdxById records i = some idx) :
    idx < records.length ∧ oget (records.getD idx []) "id" = some (.str i) := by
  unfold findIdxById at h
  rw [List.findIdx?_eq_some_iff_findIdx_eq] at h
  obtain ⟨hlt, hidx⟩ := h
  subst hidx
  refine ⟨hlt, ?_⟩
  have hget : records.getD (records.findIdx
        (fun r => decide (oget r "id" = some (.str i)))) []
      = records.get ⟨records.findIdx (fun r => decide (oget r "id" = some (.str i))), hlt⟩ := by
    simp [List.getD_eq_getElem?_getD, List.getElem?_eq_getElem hlt, List.get_eq_getElem]
  rw [hget]
  have hp := @List.findIdx_getElem _ (fun r => decide (oget r "id" = some (.str i)))
    records hlt
  simpa [List.get_eq_getElem] using hp

theorem idFromPayload_eq_of_truthy (payload : Obj) (g1 g2 : String)
    (h : otruthy (oget payload "id") = true) :
    idFromPayload payload g1 = idFromPayload payload g2 := by
  unfold idFromPayload
  cases hid : oget payload "id" with
  | none => simp [otruthy, hid] at h
  | some v =>
    rw [hid] at h
    simp only [otruthy] at h
    simp [h]

@[simp] theorem except_bind_ok {ε α β : Type} (a : α) (f : α → Except ε β) :
    (Except.ok a : Except ε α) >>= f = f a := rfl

@[simp] theorem except_bind_error {ε α β : Type} (e : ε) (f : α → Except ε β) :
    (Except.error e : Except ε α) >>= f = .error e := rfl

@[simp] theorem except_pure_bind {ε α β : Type} (a : α) (f : α → Except ε β) :
    (pure a : Except ε α) >>= f = f a := rfl

@[simp] theorem except_pure_eq_ok {ε α : Type} (a : α) :
    (pure a : Except ε α) = .ok a := rfl

/-! ### The factory attempts -/

theorem tryCreate_eq_some_iff (env : StorageFactory.ProbeEnv) (t : String) (a : AdapterKind) :
    StorageFactory.tryCreate env t = some a ↔
      a = StorageFactory.adapterFor t ∧ env.initThrows a = false ∧ env.healthy a = true := by
  unfold StorageFactory.tryCreate
  constructor
  · intro h
    by_cases h1 : env.initThrows (StorageFactory.adapterFor t)
    · simp [h1] at h
    · by_cases h2 : env.healthy (StorageFactory.adapterFor t)
      · simp [h1, h2] at h
        subst h
        exact ⟨rfl, Bool.eq_false_iff.mpr h1, h2⟩
      · simp [h1, h2] at h
  · rintro ⟨rfl, hi, hh⟩
    simp [hi, hh]

theorem tryCreate_eq_none_iff (env : StorageFactory.ProbeEnv) (t : String) :
    StorageFactory.tryCreate env t = none ↔
      env.initThrows (StorageFactory.adapterFor t) = true ∨
      env.healthy (StorageFactory.adapterFor t) = false := by
  unfold StorageFactory.tryCreate
  by_cases h1 : env.initThrows (StorageFactory.adapterFor t) <;>
    by_cases h2 : env.healthy (StorageFactory.adapterFor t) <;>
      simp [h1, h2]

/-! ### Backend parity on the common fragment -/

theorem runOp_parity (s : MemoryStorage) (op : POp) (hg : op.good = true) :
    runFileOp (.doc s.data) op = .ok ((runMemOp s op).1, .doc ((runMemOp s op).2.data)) := by
  cases op with
  | getCollection c => rfl
  | getRecord c i => rfl
  | createRecord c payload now rnd =>
    have hid : idFromPayload payload (generateIdFile now rnd)
        = idFromPayload payload (generateIdMem now rnd) :=
      idFromPayload_eq_of_truthy payload _ _ (by simpa [POp.good] using hg)
    simp only [runFileOp, runMemOp, FileStorage.createRecord, MemoryStorage.createRecord,
      FileStorage.read, except_bind_ok, except_pure_bind, except_pure_eq_ok, hid]
  | updateRecord c i patch now =>
    simp only [runFileOp, runMemOp, FileStorage.updateRecord, MemoryStorage.updateRecord,
      FileStorage.read, except_bind_ok]
    cases hd : dget s.data c with
    | none => rfl
    | some records =>
      cases hf : findIdxById records i with
      | none =>
        simp only [hf, except_bind_ok, except_pure_bind, except_pure_eq_ok]
      | some idx =>
        simp only [hf, except_bind_ok, except_pure_bind, except_pure_eq_ok]
  | deleteRecord c i =>
    simp only [runFileOp, runMemOp, FileStorage.deleteRecord, MemoryStorage.deleteRecord,
      FileStorage.read, except_bind_ok]
    cases hd : dget s.data c with
    | none => rfl
    | some records =>
      by_cases hl : (records.filter (fun r => ¬ oget r "id" = some (.str i))).length
          = records.length
      · have hrem := filter_eq_self_of_length_eq records _ hl
        have hds := dset_self_of_dget s.data c records hd
        simp only [except_bind_ok, except_pure_bind, except_pure_eq_ok]
        rw [if_pos hl]
        simp only [except_bind_ok, except_pure_bind, except_pure_eq_ok, hrem, hds]
        simp [Nat.lt_irrefl]
      · have hlt : (records.filter (fun r => ¬ oget r "id" = some (.str i))).length
            < records.length :=
          Nat.lt_of_le_of_ne (List.length_filter_le _ _) hl
        have hlt2 : (records.filter
              (fun r => !decide (oget r "id" = some (Val.str i)))).length < records.length := by
          simpa [decide_not] using hlt
        simp only [except_bind_ok, except_pure_bind, except_pure_eq_ok]
        rw [if_neg hl]
        simp only [except_bind_ok, except_pure_bind, except_pure_eq_ok]
        simp [hlt, hlt2]
  | getStats => rfl

theorem run_parity (ops : List POp) (s : MemoryStorage)
    (h : ∀ op ∈ ops, op.good = true) :
    runFile (.doc s.data) ops = .ok ((runMem s ops).1, .doc ((runMem s ops).2.data)) := by
  induction ops generalizing s with
  | nil => rfl
  | cons op rest ih =>
    have hop := runOp_parity s op (h op (List.mem_cons_self _ _))
    simp only [runFile, runMem, hop, except_bind_ok]
    rw [ih ((runMemOp s op).2) (fun o ho => h o (List.mem_cons_of_mem _ ho))]
    rfl

theorem dget_seed_getD (c : String) : (dget DefaultCollections c).getD [] = [] := by
  simp only [DefaultCollections, dget]
  split_ifs <;> rfl

theorem oget_buildCreated_id (payload : Obj) (idv : Val) (now : Nat) :
    oget (buildCreated payload idv now) "id" = some idv := by
  unfold buildCreated
  rw [oget_omerge]
  simp [oget]

theorem oget_buildCreated_createdAt (payload : Obj) (idv : Val) (now : Nat) :
    oget (buildCreated payload idv now) "createdAt" = some (.num now) := by
  unfold buildCreated
  rw [oget_omerge]
  simp [oget]

theorem oget_buildCreated_updatedAt (payload : Obj) (idv : Val) (now : Nat) :
    oget (buildCreated payload idv now) "updatedAt" = some (.num now) := by
  unfold buildCreated
  rw [oget_omerge]
  simp [oget]

theorem oget_buildCreated_other (payload : Obj) (idv : Val) (now : Nat) (k : String)
    (h1 : k ≠ "id") (h2 : k ≠ "createdAt") (h3 : k ≠ "updatedAt") :
    oget (buildCreated payload idv now) k = oget payload k := by
  unfold buildCreated
  rw [oget_omerge]
  have e1 : ¬ "id" = k := fun hh => h1 hh.symm
  have e2 : ¬ "createdAt" = k := fun hh => h2 hh.symm
  have e3 : ¬ "updatedAt" = k := fun hh => h3 hh.symm
  simp [oget, e1, e2, e3]

theorem idFromPayload_of_truthy (payload : Obj) (g : String)
    (h : otruthy (oget payload "id") = true) :
    some (idFromPayload payload g) = oget payload "id" := by
  unfold idFromPayload
  cases hid : oget payload "id" with
  | none => rw [hid] at h; simp [otruthy] at h
  | some v =>
    rw [hid] at h
    simp only [otruthy] at h
    simp [h]

theorem idFromPayload_of_falsy (payload : Obj) (g : String)
    (h : otruthy (oget payload "id") = false) :
    idFromPayload payload g = .str g := by
  unfold idFromPayload
  cases hid : oget payload "id" with
  | none => rfl
  | some v =>
    rw [hid] at h
    simp only [otruthy] at h
    simp [h]

theorem dget_ensure_self (x : Doc) (c : String) :
    (dget (if (dget x c).isNone then dset x c [] else x) c).getD []
      = (dget x c).getD [] := by
  cases h : dget x c <;> simp [h, dget_dset_self]

theorem dget_ensure_ne (x : Doc) (c c2 : String) (h : c2 ≠ c) :
    dget (if (dget x c).isNone then dset x c [] else x) c2 = dget x c2 := by
  cases hx : dget x c <;> simp [hx, dget_dset_ne x c [] c2 h]

theorem oget_buildUpdated_id (ex up : Obj) (i : String) (now : Nat) :
    oget (buildUpdated ex up i now) "id" = some (.str i) := by
  unfold buildUpdated
  rw [oget_omerge]
  simp [oget]

theorem oget_buildUpdated_updatedAt (ex up : Obj) (i : String) (now : Nat) :
    oget (buildUpdated ex up i now) "updatedAt" = some (.num now) := by
  unfold buildUpdated
  rw [oget_omerge]
  simp [oget]

theorem oget_buildUpdated_other (ex up : Obj) (i : String) (now : Nat) (k : String)
    (h1 : k ≠ "id") (h2 : k ≠ "updatedAt") :
    oget (buildUpdated ex up i now) k
      = match oget up k with | some v => some v | none => oget ex k := by
  unfold buildUpdated
  rw [oget_omerge, oget_omerge]
  have e1 : ¬ "id" = k := fun hh => h1 hh.symm
  have e2 : ¬ "updatedAt" = k := fun hh => h2 hh.symm
  simp only [oget, if_neg e1, if_neg e2]

theorem tryFallbacks_eq_some (env : StorageFactory.ProbeEnv) (primary : String)
    (ts : List String) (a : AdapterKind)
    (h : StorageFactory.tryFallbacks env primary ts = some a) :
    ∃ t ∈ ts, t ≠ primary ∧ StorageFactory.tryCreate env t = some a := by
  induction ts with
  | nil => simp [StorageFactory.tryFallbacks] at h
  | cons t rest ih =>
    by_cases hp : t = primary
    · simp only [StorageFactory.tryFallbacks, if_pos hp] at h
      obtain ⟨t2, ht2, hne, htc⟩ := ih h
      exact ⟨t2, List.mem_cons_of_mem _ ht2, hne, htc⟩
    · simp only [StorageFactory.tryFallbacks, if_neg hp] at h
      cases htc : StorageFactory.tryCreate env t with
      | some a0 =>
        simp only [htc, Option.some.injEq] at h
        subst h
        exact ⟨t, List.mem_cons_self t rest, hp, htc⟩
      | none =>
        simp only [htc] at h
        obtain ⟨t2, ht2, hne, htc2⟩ := ih h
        exact ⟨t2, List.mem_cons_of_mem _ ht2, hne, htc2⟩

/-! ### Claim theorems -/

/-- C1 (code bug): the spec requires `healthCheck` to leave the stored
Document exactly as it was, but `FileStorage.healthCheck` writes
`{ ...DefaultCollections, _healthCheck: true }` and then the bare seed over
the file: evaluated at a document holding one `users` record, the probe
reports `true` yet afterwards the file holds only the empty seed and the
record is gone. -/
theorem fileHealthCheck_wipes_document :
    FileStorage.healthCheck
        (.doc [("users", [[("id", Val.str "u1"), ("name", Val.str "Jane")]]),
               ("posts", []), ("comments", [])])
      = (true, .doc DefaultCollections)
    ∧ FileStorage.getRecord
        (.doc [("users", [[("id", Val.str "u1"), ("name", Val.str "Jane")]]),
               ("posts", []), ("comments", [])]) "users" "u1"
      = .ok (some [("id", Val.str "u1"), ("name", Val.str "Jane")])
    ∧ FileStorage.getRecord (.doc DefaultCollections) "users" "u1" = .ok none
    ∧ FileContents.doc DefaultCollections
      ≠ .doc [("users", [[("id", Val.str "u1"), ("name", Val.str "Jane")]]),
              ("posts", []), ("comments", [])] :=
  ⟨rfl, rfl, rfl, by decide⟩

/-- C4 counterexample: on a file whose contents are not parseable JSON,
`FileStorage.init` rethrows the wrapped read error instead of writing the
fresh seeded Document the claim promises. -/
theorem fileInit_unparsable_counterexample :
    FileStorage.init .invalidJson = .error ()
    ∧ ¬ FileStorage.init .invalidJson = .ok (.doc DefaultCollections) :=
  ⟨rfl, fun h => Except.noConfusion h⟩

/-- C4 (amended): `init` writes the fresh seeded Document when the file is
absent or when its contents parse to `null` or a non-object value; a valid
document object is left untouched; contents that fail JSON parsing make
`init` throw its initialization error instead of reseeding. -/
theorem fileInit_amended :
    FileStorage.init .absent = .ok (.doc DefaultCollections)
    ∧ FileStorage.init .nonObjectJson = .ok (.doc DefaultCollections)
    ∧ (∀ d : Doc, FileStorage.init (.doc d) = .ok (.doc d))
    ∧ FileStorage.init .invalidJson = .error () :=
  ⟨rfl, rfl, fun _ => rfl, rfl⟩

/-- C5 counterexample: a record created in a fresh collection between two
`MemoryStorage.init` calls is returned by `getRecord` before the second
`init` and is gone after it — the second `init` resets the Document. -/
theorem memoryInit_reset_counterexample :
    MemoryStorage.getRecord
        ((MemoryStorage.new.init.createRecord "tasks" [("id", Val.str "t1")] 5 "r").2)
        "tasks" "t1"
      = some [("id", Val.str "t1"), ("createdAt", Val.num 5), ("updatedAt", Val.num 5)]
    ∧ MemoryStorage.getRecord
        ((MemoryStorage.new.init.createRecord "tasks" [("id", Val.str "t1")] 5 "r").2.init)
        "tasks" "t1"
      = none :=
  ⟨rfl, rfl⟩

/-- C5 (amended): `MemoryStorage.init` re-establishes the seeded Document
unconditionally — the `initialized` flag is set but never consulted — so a
record created between two `init` calls in a collection outside the seeded
defaults is no longer returned by `getRecord` after the second `init`. -/
theorem memoryInit_amended :
    ∀ (s : MemoryStorage) (c i : String),
      (MemoryStorage.init s).initialized = true
      ∧ (c ≠ "users" → c ≠ "posts" → c ≠ "comments" →
          MemoryStorage.getCollection (MemoryStorage.init s) c = []
          ∧ MemoryStorage.getRecord (MemoryStorage.init s) c i = none) := by
  intro s c i
  refine ⟨rfl, ?_⟩
  intro h1 h2 h3
  have e1 : ¬ "users" = c := fun hh => h1 hh.symm
  have e2 : ¬ "posts" = c := fun hh => h2 hh.symm
  have e3 : ¬ "comments" = c := fun hh => h3 hh.symm
  constructor
  · simp [MemoryStorage.init, MemoryStorage.getCollection, DefaultCollections, dget,
      e1, e2, e3]
  · simp [MemoryStorage.init, MemoryStorage.getRecord, DefaultCollections, dget,
      findById, e1, e2, e3]

/-- Witness for the amended C5 statement at a concrete non-seed collection. -/
theorem memoryInit_amended_witness :
    MemoryStorage.getRecord (MemoryStorage.init MemoryStorage.new) "tasks" "x" = none :=
  ((memoryInit_amended MemoryStorage.new "tasks" "x").2
    (by decide) (by decide) (by decide)).2

/-- C10: when the storage file is missing, `FileStorage.read` yields the
default seed collections (all empty) instead of raising, so `getCollection`,
`getRecord`, `getStats` and `createBackup` observe the empty seed Document;
a file whose contents do not parse makes all of them raise instead. -/
theorem fileRead_missing_contract :
    FileStorage.read .absent = .ok (.doc DefaultCollections)
    ∧ DefaultCollections = [("users", []), ("posts", []), ("comments", [])]
    ∧ (∀ c, FileStorage.getCollection .absent c = .ok [])
    ∧ (∀ c i, FileStorage.getRecord .absent c i = .ok none)
    ∧ FileStorage.getStats .absent = .ok (statsOf "file" DefaultCollections)
    ∧ (statsOf "file" DefaultCollections).totalRecords = 0
    ∧ FileStorage.createBackup .absent
        = .ok (.doc DefaultCollections, statsOf "file" DefaultCollections)
    ∧ FileStorage.read .invalidJson = .error ()
    ∧ (∀ c, FileStorage.getCollection .invalidJson c = .error ())
    ∧ (∀ c i, FileStorage.getRecord .invalidJson c i = .error ())
    ∧ FileStorage.getStats .invalidJson = .error ()
    ∧ FileStorage.createBackup .invalidJson = .error () := by
  refine ⟨rfl, rfl, ?_, ?_, rfl, rfl, rfl, rfl, fun _ => rfl, fun _ _ => rfl, rfl, rfl⟩
  · intro c
    show Except.ok ((dget DefaultCollections c).getD []) = Except.ok []
    rw [dget_seed_getD]
  · intro c i
    show Except.ok (findById ((dget DefaultCollections c).getD []) i) = Except.ok none
    rw [dget_seed_getD]
    rfl

/-- C2 counterexample: both adapters honour a caller-supplied truthy `id`
(`record.id || this.generateId()`), so `createRecord` with a payload carrying
`id: "custom-id"` stores exactly that id instead of a backend-generated one
(`mem-5-abc` respectively `5-abc` here). -/
theorem createRecord_caller_id_counterexample :
    oget ((MemoryStorage.new.init.createRecord "users"
        [("id", Val.str "custom-id")] 5 "abc").1) "id"
      = some (.str "custom-id")
    ∧ generateIdMem 5 "abc" = "mem-5-abc"
    ∧ Val.str "custom-id" ≠ Val.str (generateIdMem 5 "abc")
    ∧ FileStorage.createRecord (.doc DefaultCollections) "users"
        [("id", Val.str "custom-id")] 5 "abc"
      = .ok ([("id", Val.str "custom-id"), ("createdAt", Val.num 5),
              ("updatedAt", Val.num 5)],
             .doc [("users", [[("id", Val.str "custom-id"), ("createdAt", Val.num 5),
                               ("updatedAt", Val.num 5)]]),
                   ("posts", []), ("comments", [])])
    ∧ Val.str "custom-id" ≠ Val.str (generateIdFile 5 "abc") :=
  ⟨rfl, rfl, by decide, rfl, by decide⟩

/-- C2 (amended): `createRecord` keeps a caller-supplied truthy `id` and
generates a fresh backend id only otherwise; it always overwrites
`createdAt` and `updatedAt` with now; every other caller field is kept
unchanged; the record is appended to the collection (auto-created when
absent) with all other collections untouched, and the returned record is
the stored one. -/
theorem createRecord_amended :
    ∀ (s : MemoryStorage) (d : Doc) (c : String) (payload : Obj) (now : Nat) (rnd : String),
      oget ((s.createRecord c payload now rnd).1) "createdAt" = some (.num now)
      ∧ oget ((s.createRecord c payload now rnd).1) "updatedAt" = some (.num now)
      ∧ (otruthy (oget payload "id") = true →
          oget ((s.createRecord c payload now rnd).1) "id" = oget payload "id")
      ∧ (otruthy (oget payload "id") = false →
          oget ((s.createRecord c payload now rnd).1) "id"
            = some (.str (generateIdMem now rnd)))
      ∧ (∀ k, k ≠ "id" → k ≠ "createdAt" → k ≠ "updatedAt" →
          oget ((s.createRecord c payload now rnd).1) k = oget payload k)
      ∧ dget (s.createRecord c payload now rnd).2.data c
          = some (s.getCollection c ++ [(s.createRecord c payload now rnd).1])
      ∧ (∀ c2, c2 ≠ c →
          dget (s.createRecord c payload now rnd).2.data c2 = dget s.data c2)
      ∧ (∀ r st2, FileStorage.createRecord (.doc d) c payload now rnd = .ok (r, st2) →
          oget r "createdAt" = some (.num now)
          ∧ oget r "updatedAt" = some (.num now)
          ∧ (otruthy (oget payload "id") = true → oget r "id" = oget payload "id")
          ∧ (otruthy (oget payload "id") = false →
              oget r "id" = some (.str (generateIdFile now rnd)))
          ∧ (∀ k, k ≠ "id" → k ≠ "createdAt" → k ≠ "updatedAt" →
              oget r k = oget payload k)
          ∧ (∃ d2, st2 = .doc d2
              ∧ dget d2 c = some ((dget d c).getD [] ++ [r])
              ∧ (∀ c2, c2 ≠ c → dget d2 c2 = dget d c2)))
      ∧ (∃ p, FileStorage.createRecord (.doc d) c payload now rnd = .ok p) := by
  intro s d c payload now rnd
  refine ⟨?_, ?_, ?_, ?_, ?_, ?_, ?_, ?_, ?_⟩
  · exact oget_buildCreated_createdAt payload _ now
  · exact oget_buildCreated_updatedAt payload _ now
  · intro ht
    simp only [MemoryStorage.createRecord]
    rw [oget_buildCreated_id payload _ now]
    exact idFromPayload_of_truthy payload _ ht
  · intro hf
    simp only [MemoryStorage.createRecord]
    rw [oget_buildCreated_id payload _ now, idFromPayload_of_falsy payload _ hf]
  · intro k h1 h2 h3
    exact oget_buildCreated_other payload _ now k h1 h2 h3
  · simp only [MemoryStorage.createRecord]
    rw [dget_dset_self, dget_ensure_self]
    rfl
  · intro c2 h
    simp only [MemoryStorage.createRecord]
    rw [dget_dset_ne _ _ _ _ h, dget_ensure_ne _ _ _ h]
  · intro r st2 heq
    simp only [FileStorage.createRecord, FileStorage.read, except_bind_ok,
      except_pure_eq_ok, Except.ok.injEq, Prod.mk.injEq] at heq
    obtain ⟨hr, hst⟩ := heq
    subst hr
    subst hst
    refine ⟨oget_buildCreated_createdAt payload _ now,
      oget_buildCreated_updatedAt payload _ now, ?_, ?_, ?_, ?_⟩
    · intro ht
      rw [oget_buildCreated_id payload _ now]
      exact idFromPayload_of_truthy payload _ ht
    · intro hf
      rw [oget_buildCreated_id payload _ now, idFromPayload_of_falsy payload _ hf]
    · intro k h1 h2 h3
      exact oget_buildCreated_other payload _ now k h1 h2 h3
    · refine ⟨_, rfl, ?_, ?_⟩
      · rw [dget_dset_self, dget_ensure_self]
      · intro c2 h
        rw [dget_dset_ne _ _ _ _ h, dget_ensure_ne _ _ _ h]
  · exact ⟨_, rfl⟩

/-- Witness for the amended C2 statement: a concrete create without a
caller id stores the generated memory id. -/
theorem createRecord_amended_witness :
    oget ((MemoryStorage.new.init.createRecord "users"
        [("name", Val.str "Jane")] 7 "xyz").1) "id"
      = some (.str (generateIdMem 7 "xyz")) :=
  ((createRecord_amended MemoryStorage.new.init DefaultCollections "users"
      [("name", Val.str "Jane")] 7 "xyz").2.2.2.1 (by decide))

/-- C3 counterexample: a patch that itself carries a `createdAt` field
overwrites the stored `createdAt` in both adapters (the spread places
`updates` after the existing record and only `id` and `updatedAt` are
forced), contradicting the claim that no patch can change `createdAt`. -/
theorem updateRecord_createdAt_counterexample :
    (MemoryStorage.updateRecord
        ⟨[("users", [[("id", Val.str "a"), ("createdAt", Val.num 1),
                      ("updatedAt", Val.num 1)]])], true⟩
        "users" "a" [("createdAt", Val.num 999)] 5).1
      = some [("id", Val.str "a"), ("createdAt", Val.num 999), ("updatedAt", Val.num 5)]
    ∧ Val.num 999 ≠ Val.num 1
    ∧ FileStorage.updateRecord
        (.doc [("users", [[("id", Val.str "a"), ("createdAt", Val.num 1),
                           ("updatedAt", Val.num 1)]])])
        "users" "a" [("createdAt", Val.num 999)] 5
      = .ok (some [("id", Val.str "a"), ("createdAt", Val.num 999),
                   ("updatedAt", Val.num 5)],
             .doc [("users", [[("id", Val.str "a"), ("createdAt", Val.num 999),
                               ("updatedAt", Val.num 5)]])]) :=
  ⟨rfl, by decide, rfl⟩

/-- C3 (amended): `updateRecord` returns absent without writing when the
collection or the id is missing; otherwise it replaces the found record
with the shallow merge of the patch over it, force-preserving `id`,
setting `updatedAt` to now (hence not below a previous `updatedAt` under a
monotone clock), and preserving `createdAt` whenever the patch itself has
no `createdAt` field; the returned record is the stored one. -/
theorem updateRecord_amended :
    ∀ (s : MemoryStorage) (d : Doc) (c i : String) (patch : Obj) (now : Nat),
      (dget s.data c = none → s.updateRecord c i patch now = (none, s))
      ∧ (∀ records, dget s.data c = some records → findIdxById records i = none →
          s.updateRecord c i patch now = (none, s))
      ∧ (∀ records idx, dget s.data c = some records → findIdxById records i = some idx →
          s.updateRecord c i patch now
            = (some (buildUpdated (records.getD idx []) patch i now),
               ⟨dset s.data c
                  (records.set idx (buildUpdated (records.getD idx []) patch i now)),
                s.initialized⟩)
          ∧ oget (records.getD idx []) "id" = some (.str i))
      ∧ (∀ ex : Obj,
          oget (buildUpdated ex patch i now) "id" = some (.str i)
          ∧ oget (buildUpdated ex patch i now) "updatedAt" = some (.num now)
          ∧ (oget patch "createdAt" = none →
              oget (buildUpdated ex patch i now) "createdAt" = oget ex "createdAt")
          ∧ (∀ k, k ≠ "id" → k ≠ "updatedAt" →
              oget (buildUpdated ex patch i now) k
                = match oget patch k with
                  | some v => some v
                  | none => oget ex k)
          ∧ (∀ u0, oget ex "updatedAt" = some (.num u0) → u0 ≤ now →
              ∃ u1, oget (buildUpdated ex patch i now) "updatedAt" = some (.num u1)
                ∧ u0 ≤ u1))
      ∧ (dget d c = none →
          FileStorage.updateRecord (.doc d) c i patch now = .ok (none, .doc d))
      ∧ (∀ records, dget d c = some records → findIdxById records i = none →
          FileStorage.updateRecord (.doc d) c i patch now = .ok (none, .doc d))
      ∧ (∀ records idx, dget d c = some records → findIdxById records i = some idx →
          FileStorage.updateRecord (.doc d) c i patch now
            = .ok (some (buildUpdated (records.getD idx []) patch i now),
                   .doc (dset d c (records.set idx
                     (buildUpdated (records.getD idx []) patch i now))))) := by
  intro s d c i patch now
  refine ⟨?_, ?_, ?_, ?_, ?_, ?_, ?_⟩
  · intro h
    simp only [MemoryStorage.updateRecord, h]
  · intro records hd hf
    simp only [MemoryStorage.updateRecord, hd, hf]
  · intro records idx hd hf
    refine ⟨?_, (findIdxById_spec records i idx hf).2⟩
    simp only [MemoryStorage.updateRecord, hd, hf]
  · intro ex
    refine ⟨oget_buildUpdated_id ex patch i now, oget_buildUpdated_updatedAt ex patch i now,
      ?_, ?_, ?_⟩
    · intro hp
      rw [oget_buildUpdated_other ex patch i now "createdAt" (by decide) (by decide), hp]
    · intro k h1 h2
      exact oget_buildUpdated_other ex patch i now k h1 h2
    · intro u0 _ hle
      exact ⟨now, oget_buildUpdated_updatedAt ex patch i now, hle⟩
  · intro h
    simp only [FileStorage.updateRecord, FileStorage.read, except_bind_ok, h,
      except_pure_eq_ok]
  · intro records hd hf
    simp only [FileStorage.updateRecord, FileStorage.read, except_bind_ok, hd, hf,
      except_pure_eq_ok]
  · intro records idx hd hf
    simp only [FileStorage.updateRecord, FileStorage.read, except_bind_ok, hd, hf,
      except_pure_eq_ok]

/-- Witness for the amended C3 statement at a concrete record and patch. -/
theorem updateRecord_amended_witness :
    MemoryStorage.updateRecord
        ⟨[("users", [[("id", Val.str "a"), ("createdAt", Val.num 1),
                      ("updatedAt", Val.num 1)]])], true⟩
        "users" "a" [("name", Val.str "Jane")] 5
      = (some (buildUpdated [("id", Val.str "a"), ("createdAt", Val.num 1),
                             ("updatedAt", Val.num 1)] [("name", Val.str "Jane")] "a" 5),
         ⟨[("users", [buildUpdated [("id", Val.str "a"), ("createdAt", Val.num 1),
                                    ("updatedAt", Val.num 1)]
                        [("name", Val.str "Jane")] "a" 5])], true⟩) :=
  ((updateRecord_amended
      ⟨[("users", [[("id", Val.str "a"), ("createdAt", Val.num 1),
                    ("updatedAt", Val.num 1)]])], true⟩
      [] "users" "a" [("name", Val.str "Jane")] 5).2.2.1
    [[("id", Val.str "a"), ("createdAt", Val.num 1), ("updatedAt", Val.num 1)]]
    0 rfl rfl).1

/-- C6: for both adapters, `deleteRecord` returns true exactly when a record
with the requested id was present (and it removes every such record); after
a true return, `getRecord` finds nothing and a second `deleteRecord` returns
false; a false return leaves the persisted Document unchanged; on a
document state the file adapter never throws. -/
theorem deleteRecord_contract :
    ∀ (s : MemoryStorage) (d : Doc) (c i : String),
      ((s.deleteRecord c i).1 = true ↔
        ∃ r ∈ (dget s.data c).getD [], oget r "id" = some (.str i))
      ∧ ((s.deleteRecord c i).1 = true →
          MemoryStorage.getRecord (s.deleteRecord c i).2 c i = none
          ∧ ((s.deleteRecord c i).2.deleteRecord c i).1 = false)
      ∧ ((s.deleteRecord c i).1 = false → (s.deleteRecord c i).2 = s)
      ∧ (∀ b st2, FileStorage.deleteRecord (.doc d) c i = .ok (b, st2) →
          (b = true ↔ ∃ r ∈ (dget d c).getD [], oget r "id" = some (.str i))
          ∧ (b = true →
              FileStorage.getRecord st2 c i = .ok none
              ∧ FileStorage.deleteRecord st2 c i = .ok (false, st2))
          ∧ (b = false → st2 = .doc d))
      ∧ (∃ p, FileStorage.deleteRecord (.doc d) c i = .ok p) := by
  intro s d c i
  refine ⟨?_, ?_, ?_, ?_, ?_⟩
  · cases hd : dget s.data c with
    | none => simp [MemoryStorage.deleteRecord, hd]
    | some records =>
      simp only [MemoryStorage.deleteRecord, hd, Option.getD_some, decide_eq_true_eq]
      exact delete_filter_length_lt_iff records i
  · intro htrue
    cases hd : dget s.data c with
    | none => simp [MemoryStorage.deleteRecord, hd] at htrue
    | some records =>
      simp only [MemoryStorage.deleteRecord, hd] at htrue ⊢
      constructor
      · simp only [MemoryStorage.getRecord, dget_dset_self, Option.getD_some]
        exact findById_filter_removed records i
      · simp only [MemoryStorage.deleteRecord, dget_dset_self]
        rw [delete_filter_idem]
        simp [Nat.lt_irrefl]
  · intro hfalse
    cases hd : dget s.data c with
    | none => simp [MemoryStorage.deleteRecord, hd]
    | some records =>
      simp only [MemoryStorage.deleteRecord, hd] at hfalse ⊢
      have hnlt := of_decide_eq_false hfalse
      have hlen : (records.filter (fun r => ¬ oget r "id" = some (.str i))).length
          = records.length :=
        Nat.le_antisymm (List.length_filter_le _ _) (Nat.le_of_not_lt hnlt)
      rw [filter_eq_self_of_length_eq records _ hlen, dset_self_of_dget s.data c records hd]
  · intro b st2 heq
    cases hd : dget d c with
    | none =>
      simp only [FileStorage.deleteRecord, FileStorage.read, except_bind_ok, hd,
        except_pure_eq_ok, Except.ok.injEq, Prod.mk.injEq] at heq
      obtain ⟨hb, hst⟩ := heq
      subst hb
      subst hst
      refine ⟨by simp [hd], fun h => absurd h (by simp), fun _ => rfl⟩
    | some records =>
      by_cases hl : (records.filter (fun r => ¬ oget r "id" = some (.str i))).length
          = records.length
      · simp only [FileStorage.deleteRecord, FileStorage.read, except_bind_ok, hd] at heq
        rw [if_pos hl] at heq
        simp only [except_pure_eq_ok, Except.ok.injEq, Prod.mk.injEq] at heq
        obtain ⟨hb, hst⟩ := heq
        subst hb
        subst hst
        refine ⟨?_, fun h => absurd h (by simp), fun _ => rfl⟩
        simp only [hd, Option.getD_some]
        constructor
        · intro h
          exact absurd h (by simp)
        · intro hex
          exfalso
          have := (delete_filter_length_lt_iff records i).mpr hex
          omega
      · have hlt : (records.filter (fun r => ¬ oget r "id" = some (.str i))).length
            < records.length :=
          Nat.lt_of_le_of_ne (List.length_filter_le _ _) hl
        simp only [FileStorage.deleteRecord, FileStorage.read, except_bind_ok, hd] at heq
        rw [if_neg hl] at heq
        simp only [except_pure_eq_ok, Except.ok.injEq, Prod.mk.injEq] at heq
        obtain ⟨hb, hst⟩ := heq
        subst hb
        subst hst
        refine ⟨?_, ?_, fun h => absurd h (by simp)⟩
        · simp only [hd, Option.getD_some]
          constructor
          · intro _
            exact (delete_filter_length_lt_iff records i).mp hlt
          · intro _
            exact trivial
        · intro _
          constructor
          · simp only [FileStorage.getRecord, FileStorage.getCollection, FileStorage.read,
              except_bind_ok, dget_dset_self, Option.getD_some, except_pure_eq_ok,
              Except.ok.injEq]
            exact findById_filter_removed records i
          · simp only [FileStorage.deleteRecord, FileStorage.read, except_bind_ok,
              dget_dset_self]
            rw [delete_filter_idem, if_pos rfl]
            rfl
  · cases hd : dget d c with
    | none =>
      refine ⟨(false, .doc d), ?_⟩
      simp only [FileStorage.deleteRecord, FileStorage.read, except_bind_ok, hd,
        except_pure_eq_ok]
    | some records =>
      by_cases hl : (records.filter (fun r => ¬ oget r "id" = some (.str i))).length
          = records.length
      · refine ⟨(false, .doc d), ?_⟩
        simp only [FileStorage.deleteRecord, FileStorage.read, except_bind_ok, hd]
        rw [if_pos hl]
        rfl
      · refine ⟨(true, .doc (dset d c
            (records.filter (fun r => ¬ oget r "id" = some (.str i))))), ?_⟩
        simp only [FileStorage.deleteRecord, FileStorage.read, except_bind_ok, hd]
        rw [if_neg hl]
        rfl

/-- Witness for C6: after a successful concrete delete, the second delete
reports false. -/
theorem deleteRecord_contract_witness :
    ((MemoryStorage.deleteRecord ⟨[("users", [[("id", Val.str "u1")]])], true⟩
        "users" "u1").2.deleteRecord "users" "u1").1 = false :=
  ((deleteRecord_contract ⟨[("users", [[("id", Val.str "u1")]])], true⟩
      [] "users" "u1").2.1 (by decide)).2

/-- C7: `createStorageWithFailover` adopts the primary attempt when its
adapter constructs and passes `healthCheck`; an attempt fails exactly when
construction or `init` throws or `healthCheck` is false; on a primary
failure the fixed fallback order file-then-memory is walked skipping the
primary type, the first passing candidate is adopted, and when every
candidate fails the call throws (`none`) instead of returning a backend. -/
theorem createStorageWithFailover_contract :
    ∀ (env : StorageFactory.ProbeEnv) (primary : String),
      (StorageFactory.tryCreate env primary = none ↔
        env.initThrows (StorageFactory.adapterFor primary) = true ∨
        env.healthy (StorageFactory.adapterFor primary) = false)
      ∧ (∀ a, StorageFactory.tryCreate env primary = some a →
          StorageFactory.createStorageWithFailover env primary = some a
          ∧ a = StorageFactory.adapterFor primary)
      ∧ (∀ a, StorageFactory.createStorageWithFailover env primary = some a →
          env.initThrows a = false ∧ env.healthy a = true)
      ∧ (StorageFactory.tryCreate env primary = none → primary ≠ "file" →
          ∀ a, StorageFactory.tryCreate env "file" = some a →
            StorageFactory.createStorageWithFailover env primary = some a)
      ∧ (StorageFactory.tryCreate env primary = none →
          (primary = "file" ∨ StorageFactory.tryCreate env "file" = none) →
          primary ≠ "memory" →
          ∀ a, StorageFactory.tryCreate env "memory" = some a →
            StorageFactory.createStorageWithFailover env primary = some a)
      ∧ (StorageFactory.tryCreate env primary = none →
          StorageFactory.tryCreate env "file" = none →
          StorageFactory.tryCreate env "memory" = none →
          StorageFactory.createStorageWithFailover env primary = none) := by
  intro env primary
  refine ⟨tryCreate_eq_none_iff env primary, ?_, ?_, ?_, ?_, ?_⟩
  · intro a h
    refine ⟨?_, ((tryCreate_eq_some_iff env primary a).mp h).1⟩
    simp only [StorageFactory.createStorageWithFailover, h]
  · intro a h
    simp only [StorageFactory.createStorageWithFailover] at h
    cases hp : StorageFactory.tryCreate env primary with
    | some a0 =>
      rw [hp] at h
      simp only [Option.some.injEq] at h
      subst h
      exact ((tryCreate_eq_some_iff env primary a0).mp hp).2
    | none =>
      rw [hp] at h
      obtain ⟨t, _, _, htc⟩ := tryFallbacks_eq_some env primary _ a h
      exact ((tryCreate_eq_some_iff env t a).mp htc).2
  · intro hp hnf a hfile
    have hne : ¬ "file" = primary := fun hh => hnf hh.symm
    simp only [StorageFactory.createStorageWithFailover, hp, StorageFactory.tryFallbacks,
      if_neg hne, hfile]
  · intro hp hor hnm a hmem
    have hne_m : ¬ "memory" = primary := fun hh => hnm hh.symm
    rcases hor with rfl | hfn
    · simp only [StorageFactory.createStorageWithFailover, hp, StorageFactory.tryFallbacks,
        if_pos rfl, if_neg hne_m, hmem]
      simp
    · by_cases hpf : "file" = primary
      · simp only [StorageFactory.createStorageWithFailover, hp,
          StorageFactory.tryFallbacks, if_pos hpf, if_neg hne_m, hmem]
      · simp only [StorageFactory.createStorageWithFailover, hp,
          StorageFactory.tryFallbacks, if_neg hpf, hfn, if_neg hne_m, hmem]
  · intro hp hf hm
    by_cases h1 : "file" = primary <;> by_cases h2 : "memory" = primary <;>
      simp [StorageFactory.createStorageWithFailover, StorageFactory.tryFallbacks,
        hp, hf, hm, h1, h2]

/-- Witness for C7: with an environment whose file adapter fails to
initialise and whose memory adapter is healthy, a file primary falls over
to the memory adapter. -/
theorem createStorageWithFailover_contract_witness :
    StorageFactory.createStorageWithFailover
        ⟨fun a => match a with | .file => true | .memory => false, fun _ => true⟩ "file"
      = some .memory :=
  ((createStorageWithFailover_contract
      ⟨fun a => match a with | .file => true | .memory => false, fun _ => true⟩
      "file").2.2.2.2.1 rfl (Or.inl rfl) (by decide) .memory rfl)

/-- C8: in every state of either adapter, `getStats` reports
`totalRecords` equal to the sum of `getCollection(c).length` over the known
collections, the `collections` map sends each known collection name to its
current length, `totalCollections` counts the keys, and the stats are a
function of the current Document alone (no cache). -/
theorem getStats_consistency :
    (∀ s : MemoryStorage,
      (MemoryStorage.getStats s).totalRecords
          = ((docKeys s.data).map (fun c => (MemoryStorage.getCollection s c).length)).sum
      ∧ (MemoryStorage.getStats s).collections
          = (docKeys s.data).map (fun c => (c, (MemoryStorage.getCollection s c).length))
      ∧ (MemoryStorage.getStats s).totalCollections = (docKeys s.data).length)
    ∧ (∀ s1 s2 : MemoryStorage, s1.data = s2.data →
        MemoryStorage.getStats s1 = MemoryStorage.getStats s2)
    ∧ (∀ d : Doc,
        FileStorage.getStats (.doc d) = .ok (statsOf "file" d)
        ∧ (∀ c, FileStorage.getCollection (.doc d) c = .ok ((dget d c).getD []))
        ∧ (statsOf "file" d).totalRecords
            = ((docKeys d).map (fun c => ((dget d c).getD []).length)).sum
        ∧ (statsOf "file" d).collections
            = (docKeys d).map (fun c => (c, ((dget d c).getD []).length)))
    ∧ FileStorage.getStats .absent = .ok (statsOf "file" DefaultCollections) := by
  refine ⟨?_, ?_, ?_, rfl⟩
  · intro s
    refine ⟨?_, rfl, rfl⟩
    show (statsOf "memory" s.data).totalRecords = _
    unfold statsOf
    rw [foldl_add_eq_sum, Nat.zero_add]
    rfl
  · intro s1 s2 h
    unfold MemoryStorage.getStats
    rw [h]
  · intro d
    refine ⟨rfl, fun c => rfl, ?_, rfl⟩
    unfold statsOf
    rw [foldl_add_eq_sum, Nat.zero_add]

/-- Witness for C8: two instances holding the same Document report the
same stats. -/
theorem getStats_consistency_witness :
    MemoryStorage.getStats ⟨DefaultCollections, true⟩
      = MemoryStorage.getStats ⟨DefaultCollections, false⟩ :=
  getStats_consistency.2.1 ⟨DefaultCollections, true⟩ ⟨DefaultCollections, false⟩ rfl

/-- C9 counterexample: the identical call sequence
init; createRecord(users, with id u1); healthCheck(); getRecord(users, u1)
run from fresh adapters ends with the file adapter reporting the record
absent (its healthCheck rewrote the file to the seed) while the memory
adapter still returns it — the observables differ. -/
theorem backend_parity_counterexample :
    (do
        let st0 ← FileStorage.init .absent
        let p ← FileStorage.createRecord st0 "users" [("id", Val.str "u1")] 1 "r"
        FileStorage.getRecord (FileStorage.healthCheck p.2).2 "users" "u1")
      = .ok none
    ∧ ((((MemoryStorage.new.init.createRecord "users"
          [("id", Val.str "u1")] 1 "r").2.healthCheck 2 "q").2).getRecord "users" "u1")
      = some [("id", Val.str "u1"), ("createdAt", Val.num 1), ("updatedAt", Val.num 1)]
    ∧ some [("id", Val.str "u1"), ("createdAt", Val.num 1), ("updatedAt", Val.num 1)]
      ≠ (none : Option Obj) :=
  ⟨rfl, rfl, by decide⟩

/-- C9 (amended): for every identical sequence drawn from getCollection,
getRecord, createRecord with a caller-supplied truthy id, updateRecord,
deleteRecord and getStats, run after `init` on fresh adapters, the file and
memory adapters produce identical observable results (stats compared on
their shared fields, leaving out `storageType` and the size and timestamp
extras) and hold the same Document; `healthCheck`, repeated `init`, `clear`
and backend-generated ids are excluded, where the adapters demonstrably
diverge. -/
theorem backend_parity (ops : List POp) (h : ∀ op ∈ ops, POp.good op = true) :
    runFileFresh ops = .ok ((runMemFresh ops).1, .doc ((runMemFresh ops).2.data)) := by
  have hr := run_parity ops (MemoryStorage.new.init) h
  unfold runFileFresh runMemFresh
  simpa [FileStorage.init, MemoryStorage.init, MemoryStorage.new] using hr

/-- Witness for the amended C9 statement on a concrete sequence. -/
theorem backend_parity_witness :
    runFileFresh [POp.createRecord "users" [("id", Val.str "u1")] 1 "r",
                  POp.getRecord "users" "u1"]
      = .ok ((runMemFresh [POp.createRecord "users" [("id", Val.str "u1")] 1 "r",
                           POp.getRecord "users" "u1"]).1,
             .doc ((runMemFresh [POp.createRecord "users" [("id", Val.str "u1")] 1 "r",
                                 POp.getRecord "users" "u1"]).2.data)) :=
  backend_parity _ (by decide)

end Patchfest
